import Mathlib

/-!
Verification of the editorconfig-cli orchestration layer (src/index.js).

The program is a thin command-line wrapper: it resolves positional
arguments to files (directly or through glob expansion, or through a JSON
manifest when no arguments are given), filters candidate paths against
exclusion regexps, stats each survivor, hands non-directories to an
external validator, prints the validator report and latches a process
exit code.

We embed the orchestration as pure trace-producing functions.  External
effects (path resolution, existsSync, lstat, glob, readFile, JSON
parsing, the RegExp engine, the external lintspaces validator) are
abstracted into an `Env` record; every observable action of the program
(stat calls, validator invocations, glob invocations, manifest reads,
printed report lines, log lines, help display) is recorded as an `Event`
in an effect value `Eff` that also tracks the mutable `exitCode` flag and
early process termination (`process.exit`, uncaught throw).
-/

/-- Observable actions of the program, in the order they happen. -/
inductive Event where
  | logInfo (msg : String)
  | logDebug (msg : String)
  | logError (msg : String)
  | logFatal (msg : String)
  | statCall (path : String)
  | validatorCall (path : String)
  | violationPrinted (line : Nat) (message : String) (severity : String)
  | globCall (pat : String)
  | manifestRead (path : Option String)
  | helpDisplayed
deriving DecidableEq, Repr

/-- How the process ends: a normal or explicit exit with a code, or a
crash from an uncaught throw in an async callback. -/
inductive Outcome where
  | exited (code : Nat)
  | crashed (msg : String)
deriving DecidableEq, Repr

/-- The effect of running a piece of the program: the events it emits, in
order; whether it set the global `exitCode` variable to 1; and whether it
terminated the process early (`process.exit` or an uncaught throw). -/
structure Eff where
  events : List Event
  exit1 : Bool
  halt : Option Outcome
deriving DecidableEq, Repr

/-- The empty effect. -/
def noEff : Eff := { events := [], exit1 := false, halt := none }

/-- An effect that only emits log-style events. -/
def logsEff (evs : List Event) : Eff := { events := evs, exit1 := false, halt := none }

/-- Effect of `log.fatal`: prints the message in red and calls
`process.exit(1)`. -/
def fatalEff (msg : String) : Eff :=
  { events := [Event.logFatal msg], exit1 := false, halt := some (Outcome.exited 1) }

/-- Effect of an uncaught `throw err` inside an async callback: the
process crashes. -/
def crashEff (msg : String) : Eff :=
  { events := [], exit1 := false, halt := some (Outcome.crashed msg) }

/-- Effect of `program.help()` (commander): prints usage help and exits
the process; the process exit code at this point is still 0, so the help
exit is a clean exit with code 0. -/
def helpEff : Eff :=
  { events := [Event.helpDisplayed], exit1 := false, halt := some (Outcome.exited 0) }

/-- Sequencing of effects: once the process has terminated, nothing that
follows runs. -/
def Eff.seq (a b : Eff) : Eff :=
  if a.halt.isSome then a
  else { events := a.events ++ b.events, exit1 := a.exit1 || b.exit1, halt := b.halt }

/-- Sequencing of a list of effects, left to right. -/
def seqList : List Eff → Eff
  | [] => noEff
  | e :: rest => e.seq (seqList rest)

/-- The final process outcome: an early termination wins; otherwise the
`beforeExit` listener runs `process.exit(exitCode)`. -/
def outcomeOf (e : Eff) : Outcome :=
  match e.halt with
  | some o => o
  | none => Outcome.exited (if e.exit1 then 1 else 0)

/-! ## A small model of the JavaScript RegExp engine

`src/index.js` compiles each exclusion pattern with `new RegExp(p)` and
tests candidate paths with `.test`.  The engine itself is external; for
the concrete patterns at play (the default pattern is `/normalize.*`) the
fragment of regex syntax needed is literal characters, `.` (any
character) and a postfix `*`.  `jsRegexTest` implements exactly that
fragment with JavaScript search semantics: `.test` succeeds when the
pattern matches starting at any position of the input, without having to
consume the whole input. -/

/-- Tokens of the regex fragment: a literal character, the any-character
dot, and starred versions of both. -/
inductive RegexTok where
  | lit (c : Char)
  | dot
  | starLit (c : Char)
  | starDot
deriving DecidableEq, Repr

/-- Compile a pattern string (as a character list) into tokens; a `*`
applies to the atom right before it. -/
def parseRegex : List Char → List RegexTok
  | [] => []
  | '.' :: '*' :: rest => RegexTok.starDot :: parseRegex rest
  | '.' :: rest => RegexTok.dot :: parseRegex rest
  | c :: '*' :: rest => RegexTok.starLit c :: parseRegex rest
  | c :: rest => RegexTok.lit c :: parseRegex rest

/-- Match a token list against a prefix of the input.  The `fuel`
argument only forces structural termination; every call strictly
decreases `tokens.length + input.length`, so starting with more fuel than
that sum never exhausts it. -/
def matchToks : Nat → List RegexTok → List Char → Bool
  | 0, _, _ => false
  | _ + 1, [], _ => true
  | fuel + 1, RegexTok.lit c :: ts, cs =>
    match cs with
    | [] => false
    | x :: xs => c == x && matchToks fuel ts xs
  | fuel + 1, RegexTok.dot :: ts, cs =>
    match cs with
    | [] => false
    | _ :: xs => matchToks fuel ts xs
  | fuel + 1, RegexTok.starLit c :: ts, cs =>
    matchToks fuel ts cs ||
      (match cs with
       | [] => false
       | x :: xs => c == x && matchToks fuel (RegexTok.starLit c :: ts) xs)
  | fuel + 1, RegexTok.starDot :: ts, cs =>
    matchToks fuel ts cs ||
      (match cs with
       | [] => false
       | _ :: xs => matchToks fuel (RegexTok.starDot :: ts) xs)

/-- `new RegExp(pat).test(input)`: the pattern matches somewhere in the
input. -/
def jsRegexTest (pat input : String) : Bool :=
  let ts := parseRegex pat.data
  let cs := input.data
  (List.range (cs.length + 1)).any
    (fun i => matchToks (ts.length + cs.length + 1) ts (List.drop i cs))

/-! ## Data model -/

/-- One violation entry of the external validator report: line number,
message and severity type string. -/
structure ReportEntry where
  line : Nat
  message : String
  type : String
deriving DecidableEq, Repr

/-- Per-file report: iteration order of line keys, each with its list of
violation entries (the report object is iterated in insertion order). -/
abbrev LineReport := List (Nat × List ReportEntry)

/-- `validator.getInvalidFiles()`: file name to per-file report, iterated
in insertion order. -/
abbrev Report := List (String × LineReport)

/-- The external world: filesystem, glob engine, JSON parser, RegExp
engine and the lintspaces validator, all treated as black boxes.
`lstat` returns `Except err isDirectory`; `readFileUtf8` takes the
(possibly null) resolved manifest path; `jsonParse` returns `none` when
`JSON.parse` throws, otherwise the string-array properties of the parsed
object. -/
structure Env where
  pathResolve : String → String
  existsSync : String → Bool
  lstat : String → Except String Bool
  globExpand : String → Except String (List String)
  readFileUtf8 : Option String → Except String String
  jsonParse : String → Option (List (String × List String))
  regexTest : String → String → Bool
  validatorReport : String → Report

/-- Hard-coded default name probed for when `--editorconfig` is absent. -/
def DEFAULT_EDITORCONFIG_NAME : String := ".editorconfig"

/-- Fixed top-level manifest property holding the glob patterns. -/
def JSON_CONFIG_PROPERTY_NAME : String := "editorconfig-cli"

/-- Default manifest file name. -/
def DEFAULT_JSON_FILENAME : String := "package.json"

/-- Built-in default exclusion pattern, the initial value of the
`-x, --exclude` option. -/
def defaultExcludePattern : String := "/normalize.*"

/-- The lintspaces severity constant `types.WARNING`. -/
def WARNING_TYPE : String := "warning"

/-- JavaScript `String.prototype.toLowerCase` on the ASCII severity
strings in play. -/
def jsToLower (s : String) : String := String.mk (s.data.map Char.toLower)

/-- Parsed command-line input: option values as supplied (before
defaulting) and the positional arguments. `exclude` lists the raw
`-x` values in order. -/
structure CLIOpts where
  editorconfig : Option String
  ignores : Option (List String)
  json : Option String
  exclude : List String
  args : List String

/-- The immutable settings record built at startup. -/
structure Settings where
  editorconfig : Option String
  ignores : List String
  json : String
  exclude : List String

/-! ## The program, function by function -/

/-- `resolve`: `pathResolve` the name, return it when it exists, else
null. -/
def resolve (env : Env) (filename : String) : Option String :=
  let resolved := env.pathResolve filename
  if env.existsSync resolved then some resolved else none

/-- `checkEditorConfig`: fatal when the named file does not resolve;
otherwise log which config is used and return the original (relative)
filename. -/
def checkEditorConfig (env : Env) (filename : String) : Eff × Option String :=
  match resolve env filename with
  | none =>
    (fatalEff (String.append "Error: Specified .editorconfig does not exist: " filename), none)
  | some filePath =>
    (logsEff [Event.logInfo (String.append "Using .editorconfig from: " filePath)], some filename)

/-- `collect`, the commander accumulator for repeated `-x` flags. -/
def collect (value : String) (memo : List String) : List String := memo ++ [value]

/-- The final value of `program.exclude`: commander starts from the
default array and feeds every `-x` occurrence through `collect`. -/
def programExclude (xs : List String) : List String :=
  xs.foldl (fun memo v => collect v memo) [defaultExcludePattern]

/-- The option-parsing phase: commander invokes `checkEditorConfig` on
the `--editorconfig` value while parsing, which can already terminate the
process. Returns the parsed `program.editorconfig` value. -/
def parsePhase (env : Env) (opts : CLIOpts) : Eff × Option String :=
  match opts.editorconfig with
  | none => (noEff, none)
  | some v => checkEditorConfig env v

/-- Construction of the `settings` record.  `program.editorconfig ||
checkEditorConfig(DEFAULT_EDITORCONFIG_NAME)`: the probe for the default
file runs whenever the parsed flag value is absent or falsy (empty
string), and that probe goes through `checkEditorConfig`, so it is fatal
when the default file is missing.  `program.exclude` is always a
(non-empty, hence truthy) array, so the `|| []` fallback never fires. -/
def buildSettings (env : Env) (opts : CLIOpts) (parsedEC : Option String) : Eff × Settings :=
  let ec : Eff × Option String :=
    match parsedEC with
    | some v =>
      if v == "" then checkEditorConfig env DEFAULT_EDITORCONFIG_NAME else (noEff, some v)
    | none => checkEditorConfig env DEFAULT_EDITORCONFIG_NAME
  (ec.1,
   { editorconfig := ec.2
     ignores := opts.ignores.getD ["js-comments", "html-comments"]
     json :=
       match opts.json with
       | some j => if j == "" then DEFAULT_JSON_FILENAME else j
       | none => DEFAULT_JSON_FILENAME
     exclude := programExclude opts.exclude })

/-- Effect of printing one violation entry: sets `exitCode = 1` exactly
when the entry type lowercases to the warning marker, and prints the
line. -/
def entryEff (e : ReportEntry) : Eff :=
  { events := [Event.violationPrinted e.line e.message e.type]
    exit1 := jsToLower e.type == WARNING_TYPE
    halt := none }

/-- Effect of printing one file section of the report: the file header
line, then every entry of every line in order. -/
def fileEff (f : String × LineReport) : Eff :=
  (logsEff [Event.logError (String.append "File: " f.1)]).seq
    (seqList (f.2.map (fun p => seqList (p.2.map entryEff))))

/-- `printReport`: render the whole report in iteration order. -/
def printReport (r : Report) : Eff := seqList (r.map fileEff)

/-- `validate`: stat the path; an stat error is thrown uncaught
(crashing the process); a directory is silently skipped; otherwise the
external validator is constructed and invoked and its invalid-file
report is printed. -/
def validate (env : Env) (filePath : String) : Eff :=
  (logsEff [Event.logDebug (String.append "Loading: " filePath),
            Event.statCall filePath]).seq
    (match env.lstat filePath with
     | Except.error m => crashEff m
     | Except.ok true => noEff
     | Except.ok false =>
       (logsEff [Event.logDebug (String.append "Validating: " filePath),
                 Event.validatorCall filePath]).seq
         (printReport (env.validatorReport filePath)))

/-- The `excludes.some(...)` loop of `onFile`: test the path against
each compiled pattern in order, log every test, log and stop at the
first match.  Returns the events and whether some pattern matched. -/
def testExcludes (env : Env) (file : String) : List String → Eff × Bool
  | [] => (noEff, false)
  | p :: ps =>
    let dbg := logsEff [Event.logDebug (String.append (String.append "Testing file " file) p)]
    if env.regexTest p file then
      (dbg.seq (logsEff [Event.logInfo (String.append file " excluded")]), true)
    else
      let rest := testExcludes env file ps
      (dbg.seq rest.1, rest.2)

/-- `onFile`: a glob-produced path is validated only when no exclusion
pattern matches it. -/
def onFile (env : Env) (settings : Settings) (file : String) : Eff :=
  let t := testExcludes env file settings.exclude
  if t.2 then t.1 else t.1.seq (validate env file)

/-- Handling of one positional argument (the body of the `processInput`
loop): an argument that resolves to an existing path is validated
directly; otherwise it is passed to the glob engine and every resulting
file goes through `onFile`; a glob rejection is rethrown uncaught. -/
def processItem (env : Env) (settings : Settings) (it : String) : Eff :=
  match resolve env it with
  | some resolved => validate env resolved
  | none =>
    (logsEff [Event.logDebug (String.append "Calling GLOB: " it),
              Event.globCall it]).seq
      (match env.globExpand it with
       | Except.error m => crashEff m
       | Except.ok files => seqList (files.map (onFile env settings)))

/-- `processInput`: process every argument in order. -/
def processInput (env : Env) (settings : Settings) (args : List String) : Eff :=
  seqList (args.map (processItem env settings))

/-- Look up the fixed manifest property among the parsed string-array
properties. -/
def lookupProp (obj : List (String × List String)) (key : String) : Option (List String) :=
  match obj.find? (fun p => p.1 == key) with
  | none => none
  | some p => some p.2

/-- The no-arguments branch: resolve the manifest path, read it, parse
it as JSON, and extract the fixed property.  A read error or a JSON
parse error is caught and logged (non-fatal); an absent or empty pattern
array prints a nothing-to-do message and shows usage help; otherwise the
patterns are processed like positional arguments. -/
def manifestBranch (env : Env) (settings : Settings) : Eff :=
  let found := resolve env settings.json
  (logsEff [Event.manifestRead found,
            Event.logDebug "Reading GLOBs from manifest"]).seq
    (match env.readFileUtf8 found with
     | Except.error m =>
       logsEff [Event.logError (String.append "Failed to read JSON file: " m)]
     | Except.ok data =>
       match env.jsonParse data with
       | none => logsEff [Event.logError "Failed to read JSON file: parse error"]
       | some obj =>
         match lookupProp obj JSON_CONFIG_PROPERTY_NAME with
         | none => (logsEff [Event.logInfo "Nothing to do =("]).seq helpEff
         | some patterns =>
           if patterns.length == 0 then
             (logsEff [Event.logInfo "Nothing to do =("]).seq helpEff
           else
             (logsEff [Event.logInfo "Loaded GLOBs from manifest"]).seq
               (processInput env settings patterns))

/-- Dispatch on the positional argument list: the manifest is consulted
exactly when it is empty. -/
def dispatch (env : Env) (settings : Settings) (args : List String) : Eff :=
  if args.length == 0 then manifestBranch env settings else processInput env settings args

/-- The whole program run: option parsing (which may already exit),
settings construction (which may exit when the default editorconfig
probe fails), then input processing. -/
def run (env : Env) (opts : CLIOpts) : Eff :=
  let pe := parsePhase env opts
  let se := buildSettings env opts pe.2
  pe.1.seq (se.1.seq (dispatch env se.2 opts.args))

/-! ## Event classifiers -/

/-- Event is a stat call. -/
def isStatEv : Event → Bool
  | Event.statCall _ => true
  | _ => false

/-- Event is an invocation of the external validator. -/
def isValidatorEv : Event → Bool
  | Event.validatorCall _ => true
  | _ => false

/-- Event is a glob-engine invocation. -/
def isGlobEv : Event → Bool
  | Event.globCall _ => true
  | _ => false

/-- Event is a read of the JSON manifest. -/
def isManifestEv : Event → Bool
  | Event.manifestRead _ => true
  | _ => false

/-- Event is a printed violation entry. -/
def isViolationEv : Event → Bool
  | Event.violationPrinted _ _ _ => true
  | _ => false

/-- Event is a printed violation entry whose severity lowercases to the
warning marker. -/
def isWarnEv : Event → Bool
  | Event.violationPrinted _ _ t => jsToLower t == WARNING_TYPE
  | _ => false

/-- Event is a `log.error` line. -/
def isErrorLogEv : Event → Bool
  | Event.logError _ => true
  | _ => false

/-! ## Generic lemmas about effect sequencing -/

theorem seq_halt_none_events {a b : Eff} (h : a.halt = none) :
    (a.seq b).events = a.events ++ b.events := by
  unfold Eff.seq
  simp [h]

theorem seq_halt_none_exit1 {a b : Eff} (h : a.halt = none) :
    (a.seq b).exit1 = (a.exit1 || b.exit1) := by
  unfold Eff.seq
  simp [h]

theorem seq_halt_none_halt {a b : Eff} (h : a.halt = none) :
    (a.seq b).halt = b.halt := by
  unfold Eff.seq
  simp [h]

theorem seq_halt_some {a b : Eff} {o : Outcome} (h : a.halt = some o) :
    a.seq b = a := by
  unfold Eff.seq
  simp [h]

theorem seq_events_cases (a b : Eff) :
    (a.seq b).events = a.events ∨ (a.seq b).events = a.events ++ b.events := by
  unfold Eff.seq
  split
  · exact Or.inl rfl
  · exact Or.inr rfl

theorem seq_forall {Q : Event → Prop} {a b : Eff}
    (ha : ∀ ev ∈ a.events, Q ev) (hb : ∀ ev ∈ b.events, Q ev) :
    ∀ ev ∈ (a.seq b).events, Q ev := by
  rcases seq_events_cases a b with h | h <;> rw [h]
  · exact ha
  · intro ev hev
    rcases List.mem_append.mp hev with h2 | h2
    exacts [ha ev h2, hb ev h2]

theorem seqList_forall {Q : Event → Prop} {l : List Eff}
    (h : ∀ e ∈ l, ∀ ev ∈ e.events, Q ev) :
    ∀ ev ∈ (seqList l).events, Q ev := by
  induction l with
  | nil => intro ev hev; simp [seqList, noEff] at hev
  | cons e rest ih =>
    exact seq_forall (h e (List.mem_cons_self e rest))
      (ih (fun x hx => h x (List.mem_cons_of_mem e hx)))

theorem seqList_map_forall {α : Type} {Q : Event → Prop} {l : List α} {f : α → Eff}
    (h : ∀ x ∈ l, ∀ ev ∈ (f x).events, Q ev) :
    ∀ ev ∈ (seqList (l.map f)).events, Q ev := by
  refine seqList_forall ?_
  intro e he
  rcases List.mem_map.mp he with ⟨x, hx, rfl⟩
  exact h x hx

theorem filter_eq_nil_of_forall {P : Event → Bool} {l : List Event}
    (h : ∀ ev ∈ l, P ev = false) : l.filter P = [] := by
  rw [List.filter_eq_nil_iff]
  intro a ha
  simp [h a ha]

/-! ## The exit-code flag tracks exactly the printed warning entries -/

/-- Invariant of every effect the program builds: the `exitCode = 1`
flag is set precisely when some printed violation entry has a severity
that lowercases to the warning marker. -/
def ExitOk (e : Eff) : Prop := e.exit1 = e.events.any isWarnEv

theorem exitOk_noEff : ExitOk noEff := rfl

theorem exitOk_logsEff {evs : List Event} (h : evs.any isWarnEv = false) :
    ExitOk (logsEff evs) := by
  simp [ExitOk, logsEff, h]

theorem exitOk_fatalEff (msg : String) : ExitOk (fatalEff msg) := by
  simp [ExitOk, fatalEff, isWarnEv]

theorem exitOk_crashEff (msg : String) : ExitOk (crashEff msg) := by
  simp [ExitOk, crashEff]

theorem exitOk_helpEff : ExitOk helpEff := by
  simp [ExitOk, helpEff, isWarnEv]

theorem exitOk_seq {a b : Eff} (ha : ExitOk a) (hb : ExitOk b) : ExitOk (a.seq b) := by
  unfold ExitOk Eff.seq at *
  split
  · exact ha
  · simp [List.any_append, ha, hb]

theorem exitOk_seqList {l : List Eff} (h : ∀ e ∈ l, ExitOk e) : ExitOk (seqList l) := by
  induction l with
  | nil => exact exitOk_noEff
  | cons e rest ih =>
    exact exitOk_seq (h e (List.mem_cons_self e rest))
      (ih (fun x hx => h x (List.mem_cons_of_mem e hx)))

theorem exitOk_entryEff (e : ReportEntry) : ExitOk (entryEff e) := by
  simp [ExitOk, entryEff, isWarnEv]

theorem exitOk_fileEff (f : String × LineReport) : ExitOk (fileEff f) := by
  refine exitOk_seq (exitOk_logsEff (by simp [isWarnEv])) ?_
  refine exitOk_seqList ?_
  intro e he
  rcases List.mem_map.mp he with ⟨p, _, rfl⟩
  refine exitOk_seqList ?_
  intro x hx
  rcases List.mem_map.mp hx with ⟨entry, _, rfl⟩
  exact exitOk_entryEff entry

theorem exitOk_printReport (r : Report) : ExitOk (printReport r) := by
  refine exitOk_seqList ?_
  intro e he
  rcases List.mem_map.mp he with ⟨f, _, rfl⟩
  exact exitOk_fileEff f

theorem exitOk_validate (env : Env) (p : String) : ExitOk (validate env p) := by
  unfold validate
  refine exitOk_seq (exitOk_logsEff (by simp [isWarnEv])) ?_
  cases h : env.lstat p with
  | error m => exact exitOk_crashEff m
  | ok b =>
    cases b
    · exact exitOk_seq (exitOk_logsEff (by simp [isWarnEv])) (exitOk_printReport _)
    · exact exitOk_noEff

theorem exitOk_testExcludes (env : Env) (file : String) (ps : List String) :
    ExitOk (testExcludes env file ps).1 := by
  induction ps with
  | nil => exact exitOk_noEff
  | cons p rest ih =>
    unfold testExcludes
    split
    · exact exitOk_seq (exitOk_logsEff (by simp [isWarnEv]))
        (exitOk_logsEff (by simp [isWarnEv]))
    · exact exitOk_seq (exitOk_logsEff (by simp [isWarnEv])) ih

theorem exitOk_onFile (env : Env) (settings : Settings) (file : String) :
    ExitOk (onFile env settings file) := by
  simp only [onFile]
  split
  · exact exitOk_testExcludes env file settings.exclude
  · exact exitOk_seq (exitOk_testExcludes env file settings.exclude) (exitOk_validate env file)

theorem exitOk_processItem (env : Env) (settings : Settings) (it : String) :
    ExitOk (processItem env settings it) := by
  unfold processItem
  split
  · exact exitOk_validate env _
  · refine exitOk_seq (exitOk_logsEff (by simp [isWarnEv])) ?_
    cases h : env.globExpand it with
    | error m => exact exitOk_crashEff m
    | ok files =>
      refine exitOk_seqList ?_
      intro e he
      rcases List.mem_map.mp he with ⟨f, _, rfl⟩
      exact exitOk_onFile env settings f

theorem exitOk_processInput (env : Env) (settings : Settings) (args : List String) :
    ExitOk (processInput env settings args) := by
  refine exitOk_seqList ?_
  intro e he
  rcases List.mem_map.mp he with ⟨x, _, rfl⟩
  exact exitOk_processItem env settings x

theorem exitOk_manifestBranch (env : Env) (settings : Settings) :
    ExitOk (manifestBranch env settings) := by
  simp only [manifestBranch]
  refine exitOk_seq (exitOk_logsEff (by simp [isWarnEv])) ?_
  cases h : env.readFileUtf8 (resolve env settings.json) with
  | error m =>
    dsimp only
    refine exitOk_logsEff ?_
    simp [isWarnEv]
  | ok data =>
    dsimp only
    cases hp : env.jsonParse data with
    | none =>
      dsimp only
      refine exitOk_logsEff ?_
      simp [isWarnEv]
    | some obj =>
      dsimp only
      cases hl : lookupProp obj JSON_CONFIG_PROPERTY_NAME with
      | none =>
        dsimp only
        refine exitOk_seq (exitOk_logsEff ?_) exitOk_helpEff
        simp [isWarnEv]
      | some patterns =>
        dsimp only
        split
        · refine exitOk_seq (exitOk_logsEff ?_) exitOk_helpEff
          simp [isWarnEv]
        · refine exitOk_seq (exitOk_logsEff ?_) (exitOk_processInput env settings patterns)
          simp [isWarnEv]

theorem exitOk_checkEditorConfig (env : Env) (filename : String) :
    ExitOk (checkEditorConfig env filename).1 := by
  unfold checkEditorConfig
  cases h : resolve env filename with
  | none => exact exitOk_fatalEff _
  | some fp => exact exitOk_logsEff (by simp [isWarnEv])

theorem exitOk_parsePhase (env : Env) (opts : CLIOpts) : ExitOk (parsePhase env opts).1 := by
  unfold parsePhase
  cases opts.editorconfig with
  | none => exact exitOk_noEff
  | some v => exact exitOk_checkEditorConfig env v

theorem exitOk_buildSettings (env : Env) (opts : CLIOpts) (parsedEC : Option String) :
    ExitOk (buildSettings env opts parsedEC).1 := by
  unfold buildSettings
  cases parsedEC with
  | none => exact exitOk_checkEditorConfig env DEFAULT_EDITORCONFIG_NAME
  | some v =>
    by_cases h : v == ""
    · simp only [h]
      exact exitOk_checkEditorConfig env DEFAULT_EDITORCONFIG_NAME
    · simp only [h]
      exact exitOk_noEff

theorem exitOk_dispatch (env : Env) (settings : Settings) (args : List String) :
    ExitOk (dispatch env settings args) := by
  unfold dispatch
  split
  · exact exitOk_manifestBranch env settings
  · exact exitOk_processInput env settings args

theorem exitOk_run (env : Env) (opts : CLIOpts) : ExitOk (run env opts) := by
  unfold run
  exact exitOk_seq (exitOk_parsePhase env opts)
    (exitOk_seq (exitOk_buildSettings env opts _) (exitOk_dispatch env _ _))

/-! ## Which kinds of events each program function can emit -/

theorem printReport_none {P : Event → Bool} (r : Report)
    (hErr : ∀ m, P (Event.logError m) = false)
    (hViol : ∀ l m t, P (Event.violationPrinted l m t) = false) :
    ∀ ev ∈ (printReport r).events, P ev = false := by
  refine seqList_map_forall ?_
  intro f _
  unfold fileEff
  refine seq_forall ?_ ?_
  · intro ev hev
    simp [logsEff] at hev
    simp [hev, hErr]
  · refine seqList_map_forall ?_
    intro p _
    refine seqList_map_forall ?_
    intro e _
    intro ev hev
    simp [entryEff] at hev
    simp [hev, hViol]

theorem validate_none {P : Event → Bool} (env : Env) (p : String)
    (hDbg : ∀ m, P (Event.logDebug m) = false)
    (hStat : P (Event.statCall p) = false)
    (hVal : P (Event.validatorCall p) = false)
    (hErr : ∀ m, P (Event.logError m) = false)
    (hViol : ∀ l m t, P (Event.violationPrinted l m t) = false) :
    ∀ ev ∈ (validate env p).events, P ev = false := by
  unfold validate
  refine seq_forall ?_ ?_
  · intro ev hev
    simp [logsEff] at hev
    rcases hev with h | h <;> simp [h, hDbg, hStat]
  · cases h : env.lstat p with
    | error m => intro ev hev; simp [crashEff] at hev
    | ok b =>
      cases b
      · refine seq_forall ?_ (printReport_none _ hErr hViol)
        intro ev hev
        simp [logsEff] at hev
        rcases hev with h | h <;> simp [h, hDbg, hVal]
      · intro ev hev; simp [noEff] at hev

theorem testExcludes_none {P : Event → Bool} (env : Env) (file : String) (ps : List String)
    (hDbg : ∀ m, P (Event.logDebug m) = false)
    (hInfo : ∀ m, P (Event.logInfo m) = false) :
    ∀ ev ∈ (testExcludes env file ps).1.events, P ev = false := by
  induction ps with
  | nil => intro ev hev; simp [testExcludes, noEff] at hev
  | cons p rest ih =>
    unfold testExcludes
    split
    · refine seq_forall ?_ ?_ <;> intro ev hev <;> simp [logsEff] at hev <;>
        simp [hev, hDbg, hInfo]
    · dsimp only
      refine seq_forall ?_ ih
      intro ev hev
      simp [logsEff] at hev
      simp [hev, hDbg]

theorem onFile_none {P : Event → Bool} (env : Env) (settings : Settings) (file : String)
    (hDbg : ∀ m, P (Event.logDebug m) = false)
    (hInfo : ∀ m, P (Event.logInfo m) = false)
    (hStat : ∀ x, P (Event.statCall x) = false)
    (hVal : ∀ x, P (Event.validatorCall x) = false)
    (hErr : ∀ m, P (Event.logError m) = false)
    (hViol : ∀ l m t, P (Event.violationPrinted l m t) = false) :
    ∀ ev ∈ (onFile env settings file).events, P ev = false := by
  simp only [onFile]
  split
  · exact testExcludes_none env file settings.exclude hDbg hInfo
  · exact seq_forall (testExcludes_none env file settings.exclude hDbg hInfo)
      (validate_none env file hDbg (hStat file) (hVal file) hErr hViol)

theorem processItem_none {P : Event → Bool} (env : Env) (settings : Settings) (it : String)
    (hDbg : ∀ m, P (Event.logDebug m) = false)
    (hInfo : ∀ m, P (Event.logInfo m) = false)
    (hGlob : ∀ x, P (Event.globCall x) = false)
    (hStat : ∀ x, P (Event.statCall x) = false)
    (hVal : ∀ x, P (Event.validatorCall x) = false)
    (hErr : ∀ m, P (Event.logError m) = false)
    (hViol : ∀ l m t, P (Event.violationPrinted l m t) = false) :
    ∀ ev ∈ (processItem env settings it).events, P ev = false := by
  unfold processItem
  cases h : resolve env it with
  | some r => exact validate_none env r hDbg (hStat r) (hVal r) hErr hViol
  | none =>
    dsimp only
    refine seq_forall ?_ ?_
    · intro ev hev
      simp [logsEff] at hev
      rcases hev with h2 | h2 <;> simp [h2, hDbg, hGlob]
    · cases hg : env.globExpand it with
      | error m => intro ev hev; simp [crashEff] at hev
      | ok files =>
        refine seqList_map_forall ?_
        intro f _
        exact onFile_none env settings f hDbg hInfo hStat hVal hErr hViol

theorem processInput_none {P : Event → Bool} (env : Env) (settings : Settings)
    (args : List String)
    (hDbg : ∀ m, P (Event.logDebug m) = false)
    (hInfo : ∀ m, P (Event.logInfo m) = false)
    (hGlob : ∀ x, P (Event.globCall x) = false)
    (hStat : ∀ x, P (Event.statCall x) = false)
    (hVal : ∀ x, P (Event.validatorCall x) = false)
    (hErr : ∀ m, P (Event.logError m) = false)
    (hViol : ∀ l m t, P (Event.violationPrinted l m t) = false) :
    ∀ ev ∈ (processInput env settings args).events, P ev = false := by
  refine seqList_map_forall ?_
  intro it _
  exact processItem_none env settings it hDbg hInfo hGlob hStat hVal hErr hViol

theorem checkEditorConfig_none {P : Event → Bool} (env : Env) (filename : String)
    (hFatal : ∀ m, P (Event.logFatal m) = false)
    (hInfo : ∀ m, P (Event.logInfo m) = false) :
    ∀ ev ∈ (checkEditorConfig env filename).1.events, P ev = false := by
  unfold checkEditorConfig
  cases h : resolve env filename with
  | none =>
    intro ev hev
    simp [fatalEff] at hev
    simp [hev, hFatal]
  | some fp =>
    intro ev hev
    simp [logsEff] at hev
    simp [hev, hInfo]

theorem parsePhase_none {P : Event → Bool} (env : Env) (opts : CLIOpts)
    (hFatal : ∀ m, P (Event.logFatal m) = false)
    (hInfo : ∀ m, P (Event.logInfo m) = false) :
    ∀ ev ∈ (parsePhase env opts).1.events, P ev = false := by
  unfold parsePhase
  cases opts.editorconfig with
  | none => intro ev hev; simp [noEff] at hev
  | some v => exact checkEditorConfig_none env v hFatal hInfo

theorem buildSettings_none {P : Event → Bool} (env : Env) (opts : CLIOpts)
    (parsedEC : Option String)
    (hFatal : ∀ m, P (Event.logFatal m) = false)
    (hInfo : ∀ m, P (Event.logInfo m) = false) :
    ∀ ev ∈ (buildSettings env opts parsedEC).1.events, P ev = false := by
  unfold buildSettings
  cases parsedEC with
  | none => exact checkEditorConfig_none env DEFAULT_EDITORCONFIG_NAME hFatal hInfo
  | some v =>
    by_cases h : v == "" <;> simp only [h]
    · exact checkEditorConfig_none env DEFAULT_EDITORCONFIG_NAME hFatal hInfo
    · simp only [Bool.false_eq_true, if_false]
      intro ev hev
      simp [noEff] at hev

/-! ## Computation lemmas for the claim proofs -/

theorem processItem_resolved (env : Env) (settings : Settings) (it r : String)
    (h : resolve env it = some r) :
    processItem env settings it = validate env r := by
  unfold processItem
  rw [h]

theorem validate_filter_stat (env : Env) (p : String) :
    (validate env p).events.filter isStatEv = [Event.statCall p] := by
  unfold validate
  rw [seq_halt_none_events rfl]
  rw [List.filter_append]
  cases h : env.lstat p with
  | error m => simp [logsEff, crashEff, isStatEv]
  | ok b =>
    cases b
    · rw [seq_halt_none_events rfl, List.filter_append]
      have hpr : (printReport (env.validatorReport p)).events.filter isStatEv = [] :=
        filter_eq_nil_of_forall
          (printReport_none _ (fun m => rfl) (fun l m t => rfl))
      simp [logsEff, isStatEv, hpr]
    · simp [logsEff, noEff, isStatEv]

theorem validate_no_glob (env : Env) (p : String) :
    ∀ ev ∈ (validate env p).events, isGlobEv ev = false :=
  validate_none env p (fun _ => rfl) rfl rfl (fun _ => rfl) (fun _ _ _ => rfl)

theorem processItem_unresolved_filter_glob (env : Env) (settings : Settings) (it : String)
    (h : resolve env it = none) :
    (processItem env settings it).events.filter isGlobEv = [Event.globCall it] := by
  unfold processItem
  rw [h]
  dsimp only
  rw [seq_halt_none_events rfl, List.filter_append]
  have htail : ∀ ev ∈ (match env.globExpand it with
      | Except.error m => crashEff m
      | Except.ok files => seqList (files.map (onFile env settings))).events,
      isGlobEv ev = false := by
    cases hg : env.globExpand it with
    | error m => intro ev hev; simp [crashEff] at hev
    | ok files =>
      refine seqList_map_forall ?_
      intro f _
      exact onFile_none env settings f (fun _ => rfl) (fun _ => rfl) (fun _ => rfl)
        (fun _ => rfl) (fun _ => rfl) (fun _ _ _ => rfl)
  rw [filter_eq_nil_of_forall htail]
  simp [logsEff, isGlobEv]

theorem testExcludes_matched (env : Env) (file : String) (ps : List String) :
    (testExcludes env file ps).2 = ps.any (fun p => env.regexTest p file) := by
  induction ps with
  | nil => simp [testExcludes]
  | cons p rest ih =>
    unfold testExcludes
    by_cases h : env.regexTest p file <;> simp [h, ih]

theorem onFile_excluded (env : Env) (settings : Settings) (file : String)
    (h : settings.exclude.any (fun p => env.regexTest p file) = true) :
    onFile env settings file = (testExcludes env file settings.exclude).1 := by
  simp only [onFile]
  rw [testExcludes_matched] at *
  simp [h]

theorem noEff_seq (b : Eff) : noEff.seq b = b := by
  unfold Eff.seq noEff
  simp

theorem logsEff_seq_logsEff (a b : List Event) :
    (logsEff a).seq (logsEff b) = logsEff (a ++ b) := by
  unfold Eff.seq logsEff
  simp

theorem checkEditorConfig_found (env : Env) (filename : String)
    (h : env.existsSync (env.pathResolve filename) = true) :
    checkEditorConfig env filename =
      (logsEff [Event.logInfo (String.append "Using .editorconfig from: "
          (env.pathResolve filename))],
       some filename) := by
  unfold checkEditorConfig resolve
  simp [h]

theorem checkEditorConfig_missing (env : Env) (filename : String)
    (h : env.existsSync (env.pathResolve filename) = false) :
    checkEditorConfig env filename =
      (fatalEff (String.append "Error: Specified .editorconfig does not exist: " filename),
       none) := by
  unfold checkEditorConfig resolve
  simp [h]

theorem run_flag_missing (env : Env) (opts : CLIOpts) (v : String)
    (hec : opts.editorconfig = some v)
    (hmiss : env.existsSync (env.pathResolve v) = false) :
    run env opts =
      fatalEff (String.append "Error: Specified .editorconfig does not exist: " v) := by
  simp only [run, parsePhase, hec]
  rw [checkEditorConfig_missing env v hmiss]
  exact seq_halt_some rfl

theorem run_default_missing (env : Env) (opts : CLIOpts)
    (hec : opts.editorconfig = none)
    (hmiss : env.existsSync (env.pathResolve DEFAULT_EDITORCONFIG_NAME) = false) :
    run env opts =
      fatalEff (String.append "Error: Specified .editorconfig does not exist: "
        DEFAULT_EDITORCONFIG_NAME) := by
  simp only [run, parsePhase, hec]
  rw [noEff_seq]
  simp only [buildSettings]
  rw [checkEditorConfig_missing env DEFAULT_EDITORCONFIG_NAME hmiss]
  exact seq_halt_some rfl

theorem run_default_found (env : Env) (opts : CLIOpts)
    (hec : opts.editorconfig = none)
    (hdef : env.existsSync (env.pathResolve DEFAULT_EDITORCONFIG_NAME) = true) :
    run env opts =
      (logsEff [Event.logInfo (String.append "Using .editorconfig from: "
          (env.pathResolve DEFAULT_EDITORCONFIG_NAME))]).seq
        (dispatch env (buildSettings env opts none).2 opts.args) := by
  simp only [run, parsePhase, hec]
  rw [noEff_seq]
  rw [buildSettings]
  rw [checkEditorConfig_found env DEFAULT_EDITORCONFIG_NAME hdef]

theorem manifestBranch_read_error (env : Env) (settings : Settings) (m : String)
    (h : env.readFileUtf8 (resolve env settings.json) = Except.error m) :
    manifestBranch env settings =
      logsEff [Event.manifestRead (resolve env settings.json),
               Event.logDebug "Reading GLOBs from manifest",
               Event.logError (String.append "Failed to read JSON file: " m)] := by
  simp only [manifestBranch]
  rw [h]
  dsimp only
  rw [logsEff_seq_logsEff]
  rfl

theorem manifestBranch_parse_error (env : Env) (settings : Settings) (d : String)
    (hr : env.readFileUtf8 (resolve env settings.json) = Except.ok d)
    (hp : env.jsonParse d = none) :
    manifestBranch env settings =
      logsEff [Event.manifestRead (resolve env settings.json),
               Event.logDebug "Reading GLOBs from manifest",
               Event.logError "Failed to read JSON file: parse error"] := by
  simp only [manifestBranch]
  rw [hr]
  dsimp only
  rw [hp]
  dsimp only
  rw [logsEff_seq_logsEff]
  rfl

theorem logsEff_seq_halted (a : List Event) (e : Eff) :
    (logsEff a).seq e = { events := a ++ e.events, exit1 := e.exit1, halt := e.halt } := by
  unfold Eff.seq logsEff
  simp

theorem manifestBranch_nothing (env : Env) (settings : Settings) (d : String)
    (obj : List (String × List String))
    (hr : env.readFileUtf8 (resolve env settings.json) = Except.ok d)
    (hp : env.jsonParse d = some obj)
    (hl : lookupProp obj JSON_CONFIG_PROPERTY_NAME = none ∨
          lookupProp obj JSON_CONFIG_PROPERTY_NAME = some []) :
    manifestBranch env settings =
      { events := [Event.manifestRead (resolve env settings.json),
                   Event.logDebug "Reading GLOBs from manifest",
                   Event.logInfo "Nothing to do =(",
                   Event.helpDisplayed]
        exit1 := false
        halt := some (Outcome.exited 0) } := by
  simp only [manifestBranch]
  rw [hr]
  dsimp only
  rw [hp]
  dsimp only
  rcases hl with hl | hl <;> rw [hl] <;> dsimp only <;>
    rw [logsEff_seq_halted, logsEff_seq_halted] <;>
    simp [helpEff]

theorem outcomeOf_halt_none {e : Eff} (h : e.halt = none) :
    outcomeOf e = Outcome.exited (if e.exit1 then 1 else 0) := by
  unfold outcomeOf
  rw [h]

theorem warn_imp_violation (ev : Event) (h : isWarnEv ev = true) :
    isViolationEv ev = true := by
  cases ev <;> simp_all [isWarnEv, isViolationEv]

theorem foldl_collect (init xs : List String) :
    xs.foldl (fun memo v => collect v memo) init = init ++ xs := by
  induction xs generalizing init with
  | nil => simp
  | cons x rest ih =>
    rw [List.foldl_cons, ih]
    simp [collect]

theorem programExclude_eq (xs : List String) :
    programExclude xs = defaultExcludePattern :: xs := by
  unfold programExclude
  rw [foldl_collect]
  rfl

/-! ## Concrete worlds for counterexamples and witnesses -/

/-- A minimal world: the working directory is `/work`, holding only the
default `.editorconfig`; every other operation fails or is empty; the
RegExp engine is the concrete `jsRegexTest`. -/
def baseEnv : Env :=
  { pathResolve := fun s => String.append "/work/" s
    existsSync := fun p => p == "/work/.editorconfig"
    lstat := fun _ => Except.ok false
    globExpand := fun _ => Except.ok []
    readFileUtf8 := fun _ => Except.error "ENOENT"
    jsonParse := fun _ => none
    regexTest := jsRegexTest
    validatorReport := fun _ => [] }

/-- A run with no flags and no positional arguments. -/
def baseOpts : CLIOpts :=
  { editorconfig := none, ignores := none, json := none, exclude := [], args := [] }

/-- The settings record of a default run: only the built-in exclusion
pattern is configured. -/
def settingsBase : Settings :=
  { editorconfig := some DEFAULT_EDITORCONFIG_NAME
    ignores := ["js-comments", "html-comments"]
    json := DEFAULT_JSON_FILENAME
    exclude := [defaultExcludePattern] }

/-- World for claim C1: an existing file `normalize.css` is passed as a
literal positional argument; its resolved absolute path matches the
default exclusion pattern. -/
def envC1 : Env := { baseEnv with
  existsSync := fun p => p == "/work/.editorconfig" || p == "/work/normalize.css" }

/-- Options for claim C1: the single positional argument `normalize.css`. -/
def optsC1 : CLIOpts := { baseOpts with args := ["normalize.css"] }

/-- World for claim C2 (counterexample): validating `a.txt` yields one
report entry of severity `error`. -/
def envC2 : Env := { baseEnv with
  existsSync := fun p => p == "/work/.editorconfig" || p == "/work/a.txt"
  validatorReport := fun _ =>
    [("a.txt", [(1, [{ line := 1, message := "bad", type := "error" }])])] }

/-- Options for claim C2: the single positional argument `a.txt`. -/
def optsC2 : CLIOpts := { baseOpts with args := ["a.txt"] }

/-- World for claim C2 (witness): validating `a.txt` yields one report
entry whose severity lowercases to the warning marker. -/
def envC2w : Env := { baseEnv with
  existsSync := fun p => p == "/work/.editorconfig" || p == "/work/a.txt"
  validatorReport := fun _ =>
    [("a.txt", [(1, [{ line := 1, message := "bad", type := "WaRnInG" }])])] }

/-- World for claim C3: no file exists at all, in particular no default
`.editorconfig` in the working directory. -/
def envC3 : Env := { baseEnv with existsSync := fun _ => false }

/-- Options for claim C3: no `--editorconfig` flag, one argument. -/
def optsC3 : CLIOpts := { baseOpts with args := ["a.txt"] }

/-- Options for claim C4: `--editorconfig missing.cfg` with an argument
that would otherwise be validated. -/
def optsC4 : CLIOpts :=
  { baseOpts with editorconfig := some "missing.cfg", args := ["a.txt"] }

/-- World for claim C5: `.editorconfig` and `a.txt` exist. -/
def envC5 : Env := { baseEnv with
  existsSync := fun p => p == "/work/.editorconfig" || p == "/work/a.txt" }

/-- World for claim C6: every stat reports a directory. -/
def envC6 : Env := { baseEnv with lstat := fun _ => Except.ok true }

/-- World for claim C8: the manifest file exists, reads fine and parses
to an object whose fixed property is the empty array. -/
def envC8 : Env := { baseEnv with
  existsSync := fun p => p == "/work/.editorconfig" || p == "/work/package.json"
  readFileUtf8 := fun p => if p == some "/work/package.json"
    then Except.ok "manifest-content" else Except.error "ENOENT"
  jsonParse := fun d => if d == "manifest-content"
    then some [(JSON_CONFIG_PROPERTY_NAME, [])] else none }

/-- Options for claim C9: one positional argument, so the manifest must
never be consulted. -/
def optsC9 : CLIOpts := { baseOpts with args := ["a.txt"] }

/-! ## Claim C10 -/

/-- C10: user-supplied `-x` patterns are accumulated onto the built-in
default pattern `/normalize.*` rather than replacing it, so the default
pattern is present in the compiled exclusion set of every run and the
exclusion list is never empty. -/
theorem C10_default_exclude_always_present (env : Env) (opts : CLIOpts)
    (parsedEC : Option String) :
    (buildSettings env opts parsedEC).2.exclude = defaultExcludePattern :: opts.exclude ∧
    defaultExcludePattern ∈ (buildSettings env opts parsedEC).2.exclude ∧
    (buildSettings env opts parsedEC).2.exclude ≠ [] := by
  have h : (buildSettings env opts parsedEC).2.exclude = programExclude opts.exclude := rfl
  rw [h, programExclude_eq]
  exact ⟨rfl, List.mem_cons_self _ _, by simp⟩

/-! ## Claim C1 -/

/-- C1 (counterexample): in the world `envC1`, the positional argument
`normalize.css` resolves to the existing path `/work/normalize.css`,
which the configured default exclusion pattern matches; yet the run both
stats it and passes it to the external validator, because literal
arguments that resolve bypass the exclusion filter entirely. -/
theorem C1_counterexample :
    defaultExcludePattern ∈
      (buildSettings envC1 optsC1 (parsePhase envC1 optsC1).2).2.exclude ∧
    envC1.regexTest defaultExcludePattern "/work/normalize.css" = true ∧
    resolve envC1 "normalize.css" = some "/work/normalize.css" ∧
    Event.statCall "/work/normalize.css" ∈ (run envC1 optsC1).events ∧
    Event.validatorCall "/work/normalize.css" ∈ (run envC1 optsC1).events := by
  decide

/-- C1 (amended): exclusion filtering applies to the paths produced by
glob expansion: whenever some configured exclusion pattern matches such a
path, `onFile` never stats it and never passes it to the external
validator (a literal positional argument that resolves to an existing
path, by contrast, bypasses the filter, as the counterexample shows). -/
theorem C1_excluded_glob_file_never_dispatched (env : Env) (settings : Settings)
    (file : String)
    (h : settings.exclude.any (fun p => env.regexTest p file) = true) :
    (onFile env settings file).events.filter isStatEv = [] ∧
    (onFile env settings file).events.filter isValidatorEv = [] := by
  rw [onFile_excluded env settings file h]
  constructor <;> refine filter_eq_nil_of_forall ?_ <;>
    exact testExcludes_none env file settings.exclude (fun _ => rfl) (fun _ => rfl)

/-- C1 witness: concretely, a glob-produced `/work/normalize.css` under
the default exclusion set is neither stat-ed nor validated. -/
theorem C1_excluded_glob_file_never_dispatched_witness :
    (onFile envC1 settingsBase "/work/normalize.css").events.filter isStatEv = [] ∧
    (onFile envC1 settingsBase "/work/normalize.css").events.filter isValidatorEv = [] :=
  C1_excluded_glob_file_never_dispatched envC1 settingsBase "/work/normalize.css" (by decide)

/-! ## Claim C2 -/

/-- C2 (counterexample): in the world `envC2` a report entry of severity
`error` is printed, yet the process exit code is 0 — `printReport` flips
the exit code only for entries whose type lowercases to `warning`, never
for `error`. -/
theorem C2_counterexample :
    (jsToLower "error" = "warning" ∨ jsToLower "error" = "error") ∧
    Event.violationPrinted 1 "bad" "error" ∈ (run envC2 optsC2).events ∧
    (run envC2 optsC2).halt = none ∧
    outcomeOf (run envC2 optsC2) = Outcome.exited 0 := by
  decide

/-- C2 (amended): for a run that is not cut short by an early process
exit, the exit code is 1 exactly when some printed violation entry has a
severity that equals `warning` case-insensitively (an `error`-severity
entry does not affect the exit code), and it is 0 whenever no violation
entry is printed at all. -/
theorem C2_exit_code_tracks_warnings (env : Env) (opts : CLIOpts)
    (h : (run env opts).halt = none) :
    (outcomeOf (run env opts) = Outcome.exited 1 ↔
      ∃ ev ∈ (run env opts).events, isWarnEv ev = true) ∧
    ((run env opts).events.filter isViolationEv = [] →
      outcomeOf (run env opts) = Outcome.exited 0) := by
  have hok := exitOk_run env opts
  unfold ExitOk at hok
  rw [outcomeOf_halt_none h]
  constructor
  · cases hb : (run env opts).exit1 with
    | true =>
      rw [hb] at hok
      simp only [if_true]
      constructor
      · intro _
        exact List.any_eq_true.mp hok.symm
      · intro _
        trivial
    | false =>
      rw [hb] at hok
      simp only [Bool.false_eq_true, if_false]
      constructor
      · intro hcontra
        exact absurd (congrArg (fun o => o = Outcome.exited 1) hcontra)
          (by simp)
      · intro hex
        have : (run env opts).events.any isWarnEv = true := List.any_eq_true.mpr hex
        rw [this] at hok
        cases hok
  · intro hnone
    have hviol : ∀ ev ∈ (run env opts).events, isViolationEv ev = false := by
      intro ev hev
      have := List.filter_eq_nil_iff.mp hnone ev hev
      simpa using this
    have hwarn : (run env opts).events.any isWarnEv = false := by
      rw [List.any_eq_false]
      intro ev hev
      intro hw
      have := warn_imp_violation ev hw
      rw [hviol ev hev] at this
      cases this
    rw [hwarn] at hok
    rw [hok]
    simp

/-- C2 witness: a run that prints one entry of severity `WaRnInG` ends
with exit code 1. -/
theorem C2_exit_code_tracks_warnings_witness :
    outcomeOf (run envC2w optsC2) = Outcome.exited 1 :=
  (C2_exit_code_tracks_warnings envC2w optsC2 (by decide)).1.mpr (by decide)

/-! ## Claim C3 -/

/-- C3 (counterexample): with no `--editorconfig` flag and no
`.editorconfig` in the working directory, the run terminates at once via
`log.fatal` with exit code 1 — the program does not continue with a null
editorconfig setting. -/
theorem C3_counterexample :
    optsC3.editorconfig = none ∧
    envC3.existsSync (envC3.pathResolve DEFAULT_EDITORCONFIG_NAME) = false ∧
    (run envC3 optsC3).halt = some (Outcome.exited 1) ∧
    outcomeOf (run envC3 optsC3) = Outcome.exited 1 ∧
    (run envC3 optsC3).events.filter isValidatorEv = [] := by
  decide

/-- C3 (amended): when `--editorconfig` is not supplied and no
default-named `.editorconfig` exists in the working directory, the
default probe goes through `checkEditorConfig` and `log.fatal`: the
process terminates with exit code 1 before any stat or validator
invocation. -/
theorem C3_missing_default_editorconfig_fatal (env : Env) (opts : CLIOpts)
    (hec : opts.editorconfig = none)
    (hmiss : env.existsSync (env.pathResolve DEFAULT_EDITORCONFIG_NAME) = false) :
    (run env opts).halt = some (Outcome.exited 1) ∧
    outcomeOf (run env opts) = Outcome.exited 1 ∧
    (run env opts).events.filter isValidatorEv = [] ∧
    (run env opts).events.filter isStatEv = [] := by
  rw [run_default_missing env opts hec hmiss]
  refine ⟨rfl, rfl, ?_, ?_⟩ <;> simp [fatalEff, isValidatorEv, isStatEv]

/-- C3 witness: the amended statement at the concrete world `envC3`. -/
theorem C3_missing_default_editorconfig_fatal_witness :
    (run envC3 optsC3).halt = some (Outcome.exited 1) ∧
    outcomeOf (run envC3 optsC3) = Outcome.exited 1 ∧
    (run envC3 optsC3).events.filter isValidatorEv = [] ∧
    (run envC3 optsC3).events.filter isStatEv = [] :=
  C3_missing_default_editorconfig_fatal envC3 optsC3 (by decide) (by decide)

/-! ## Claim C4 -/

/-- C4: when `--editorconfig` names a file that does not exist, the
process terminates immediately through `log.fatal` with exit code 1,
before any stat or validator invocation — no validation of any input
file is ever attempted. -/
theorem C4_missing_explicit_editorconfig_fatal (env : Env) (opts : CLIOpts) (v : String)
    (hec : opts.editorconfig = some v)
    (hmiss : env.existsSync (env.pathResolve v) = false) :
    outcomeOf (run env opts) = Outcome.exited 1 ∧
    (run env opts).halt = some (Outcome.exited 1) ∧
    (run env opts).events.filter isValidatorEv = [] ∧
    (run env opts).events.filter isStatEv = [] := by
  rw [run_flag_missing env opts v hec hmiss]
  refine ⟨rfl, rfl, ?_, ?_⟩ <;> simp [fatalEff, isValidatorEv, isStatEv]

/-- C4 witness: `--editorconfig missing.cfg` in a world where
`missing.cfg` does not exist. -/
theorem C4_missing_explicit_editorconfig_fatal_witness :
    outcomeOf (run baseEnv optsC4) = Outcome.exited 1 ∧
    (run baseEnv optsC4).halt = some (Outcome.exited 1) ∧
    (run baseEnv optsC4).events.filter isValidatorEv = [] ∧
    (run baseEnv optsC4).events.filter isStatEv = [] :=
  C4_missing_explicit_editorconfig_fatal baseEnv optsC4 "missing.cfg" (by decide) (by decide)

/-! ## Claim C5 -/

/-- C5: a positional argument that resolves to an existing path is
handed to the validation dispatcher directly and exactly once (one stat
call, on the resolved path) with no glob-engine invocation; an argument
that does not resolve is instead passed to the glob engine (exactly one
glob invocation, on the argument itself). -/
theorem C5_resolved_argument_validated_directly (env : Env) (settings : Settings)
    (it : String) :
    (∀ r, resolve env it = some r →
      (processItem env settings it).events.filter isStatEv = [Event.statCall r] ∧
      (processItem env settings it).events.filter isGlobEv = []) ∧
    (resolve env it = none →
      (processItem env settings it).events.filter isGlobEv = [Event.globCall it]) := by
  constructor
  · intro r h
    rw [processItem_resolved env settings it r h]
    exact ⟨validate_filter_stat env r, filter_eq_nil_of_forall (validate_no_glob env r)⟩
  · intro h
    exact processItem_unresolved_filter_glob env settings it h

/-- C5 witness: in `envC5` the existing argument `a.txt` yields exactly
one stat on `/work/a.txt` and no glob call, while the non-existing
argument `missing` yields exactly one glob call. -/
theorem C5_resolved_argument_validated_directly_witness :
    (processItem envC5 settingsBase "a.txt").events.filter isStatEv =
      [Event.statCall "/work/a.txt"] ∧
    (processItem envC5 settingsBase "a.txt").events.filter isGlobEv = [] ∧
    (processItem envC5 settingsBase "missing").events.filter isGlobEv =
      [Event.globCall "missing"] :=
  ⟨((C5_resolved_argument_validated_directly envC5 settingsBase "a.txt").1
      "/work/a.txt" (by decide)).1,
   ((C5_resolved_argument_validated_directly envC5 settingsBase "a.txt").1
      "/work/a.txt" (by decide)).2,
   (C5_resolved_argument_validated_directly envC5 settingsBase "missing").2 (by decide)⟩

/-! ## Claim C6 -/

/-- C6: when the stat of a path reports a directory, `validate` silently
skips it: the external validator is never invoked, no report entry is
printed, the exit-code flag is untouched and the process does not
terminate — regardless of whether the path arrived directly or from glob
expansion (both call this same `validate`). -/
theorem C6_directories_silently_skipped (env : Env) (p : String)
    (h : env.lstat p = Except.ok true) :
    (validate env p).events.filter isValidatorEv = [] ∧
    (validate env p).events.filter isViolationEv = [] ∧
    (validate env p).exit1 = false ∧
    (validate env p).halt = none := by
  unfold validate
  rw [h]
  dsimp only
  simp [Eff.seq, logsEff, noEff, isValidatorEv, isViolationEv]

/-- C6 witness: the directory `/work/dir` in `envC6`. -/
theorem C6_directories_silently_skipped_witness :
    (validate envC6 "/work/dir").events.filter isValidatorEv = [] ∧
    (validate envC6 "/work/dir").events.filter isViolationEv = [] ∧
    (validate envC6 "/work/dir").exit1 = false ∧
    (validate envC6 "/work/dir").halt = none :=
  C6_directories_silently_skipped envC6 "/work/dir" rfl

/-! ## Claim C7 -/

/-- C7: in the manifest fallback (no positional arguments), when the
manifest file is missing or unreadable, or its content is not valid
JSON, the error is caught and logged and the process continues to a
normal exit with code 0; no file is ever stat-ed or validated. -/
theorem C7_manifest_failure_nonfatal (env : Env) (opts : CLIOpts)
    (hargs : opts.args = [])
    (hec : opts.editorconfig = none)
    (hdef : env.existsSync (env.pathResolve DEFAULT_EDITORCONFIG_NAME) = true)
    (hjson : opts.json = none)
    (hfail : (∃ m, env.readFileUtf8 (resolve env DEFAULT_JSON_FILENAME) = Except.error m) ∨
             (∃ d, env.readFileUtf8 (resolve env DEFAULT_JSON_FILENAME) = Except.ok d ∧
                   env.jsonParse d = none)) :
    outcomeOf (run env opts) = Outcome.exited 0 ∧
    (run env opts).events.filter isErrorLogEv ≠ [] ∧
    (run env opts).events.filter isValidatorEv = [] ∧
    (run env opts).events.filter isStatEv = [] := by
  rw [run_default_found env opts hec hdef]
  have hS : (buildSettings env opts none).2.json = DEFAULT_JSON_FILENAME := by
    simp [buildSettings, hjson]
  rw [hargs]
  simp only [dispatch, List.length_nil, beq_self_eq_true, if_true]
  rcases hfail with ⟨m, hm⟩ | ⟨d, hd, hp⟩
  · rw [manifestBranch_read_error env _ m (by rw [hS]; exact hm)]
    rw [logsEff_seq_logsEff]
    refine ⟨rfl, ?_, ?_, ?_⟩ <;>
      simp [logsEff, isErrorLogEv, isValidatorEv, isStatEv, outcomeOf]
  · rw [manifestBranch_parse_error env _ d (by rw [hS]; exact hd) hp]
    rw [logsEff_seq_logsEff]
    refine ⟨rfl, ?_, ?_, ?_⟩ <;>
      simp [logsEff, isErrorLogEv, isValidatorEv, isStatEv, outcomeOf]

/-- C7 witness: the base world, where the manifest read fails with
ENOENT. -/
theorem C7_manifest_failure_nonfatal_witness :
    outcomeOf (run baseEnv baseOpts) = Outcome.exited 0 ∧
    (run baseEnv baseOpts).events.filter isErrorLogEv ≠ [] ∧
    (run baseEnv baseOpts).events.filter isValidatorEv = [] ∧
    (run baseEnv baseOpts).events.filter isStatEv = [] :=
  C7_manifest_failure_nonfatal baseEnv baseOpts rfl rfl (by decide) rfl
    (Or.inl ⟨"ENOENT", rfl⟩)

/-! ## Claim C8 -/

/-- C8: with an empty positional argument list and a manifest whose
fixed `editorconfig-cli` property is absent or the empty array, the run
prints the nothing-to-do message, displays usage help, performs no stat
or validator invocation, and exits cleanly with code 0. -/
theorem C8_empty_manifest_nothing_to_do (env : Env) (opts : CLIOpts) (d : String)
    (obj : List (String × List String))
    (hargs : opts.args = [])
    (hec : opts.editorconfig = none)
    (hdef : env.existsSync (env.pathResolve DEFAULT_EDITORCONFIG_NAME) = true)
    (hjson : opts.json = none)
    (hread : env.readFileUtf8 (resolve env DEFAULT_JSON_FILENAME) = Except.ok d)
    (hparse : env.jsonParse d = some obj)
    (hprop : lookupProp obj JSON_CONFIG_PROPERTY_NAME = none ∨
             lookupProp obj JSON_CONFIG_PROPERTY_NAME = some []) :
    outcomeOf (run env opts) = Outcome.exited 0 ∧
    Event.logInfo "Nothing to do =(" ∈ (run env opts).events ∧
    Event.helpDisplayed ∈ (run env opts).events ∧
    (run env opts).events.filter isValidatorEv = [] ∧
    (run env opts).events.filter isStatEv = [] := by
  rw [run_default_found env opts hec hdef]
  have hS : (buildSettings env opts none).2.json = DEFAULT_JSON_FILENAME := by
    simp [buildSettings, hjson]
  rw [hargs]
  simp only [dispatch, List.length_nil, beq_self_eq_true, if_true]
  rw [manifestBranch_nothing env _ d obj (by rw [hS]; exact hread) hparse hprop]
  rw [logsEff_seq_halted]
  refine ⟨rfl, ?_, ?_, ?_, ?_⟩ <;>
    simp [logsEff, isValidatorEv, isStatEv]

/-- C8 witness: the world `envC8`, whose manifest holds an empty pattern
array. -/
theorem C8_empty_manifest_nothing_to_do_witness :
    outcomeOf (run envC8 baseOpts) = Outcome.exited 0 ∧
    Event.logInfo "Nothing to do =(" ∈ (run envC8 baseOpts).events ∧
    Event.helpDisplayed ∈ (run envC8 baseOpts).events ∧
    (run envC8 baseOpts).events.filter isValidatorEv = [] ∧
    (run envC8 baseOpts).events.filter isStatEv = [] :=
  C8_empty_manifest_nothing_to_do envC8 baseOpts "manifest-content"
    [(JSON_CONFIG_PROPERTY_NAME, [])] rfl rfl (by decide) rfl rfl rfl
    (Or.inr rfl)

/-! ## Claim C9 -/

/-- C9: the JSON manifest is read only when the positional argument list
is empty — a run with at least one positional argument never performs a
manifest read. -/
theorem C9_manifest_only_when_no_args (env : Env) (opts : CLIOpts)
    (h : opts.args ≠ []) :
    (run env opts).events.filter isManifestEv = [] := by
  refine filter_eq_nil_of_forall ?_
  simp only [run]
  refine seq_forall (parsePhase_none env opts (fun _ => rfl) (fun _ => rfl)) ?_
  refine seq_forall (buildSettings_none env opts _ (fun _ => rfl) (fun _ => rfl)) ?_
  have hl : (opts.args.length == 0) = false := by
    rw [beq_eq_false_iff_ne]
    simpa [List.length_eq_zero] using h
  simp only [dispatch, hl, Bool.false_eq_true, if_false]
  exact processInput_none env _ opts.args (fun _ => rfl) (fun _ => rfl) (fun _ => rfl)
    (fun _ => rfl) (fun _ => rfl) (fun _ => rfl) (fun _ _ _ => rfl)

/-- C9 witness: the single-argument run `optsC9` in the base world. -/
theorem C9_manifest_only_when_no_args_witness :
    (run baseEnv optsC9).events.filter isManifestEv = [] :=
  C9_manifest_only_when_no_args baseEnv optsC9 (by decide)
